import Mathlib

/-!
Verification development for the session core of a WireGuard-style tunnel
(`device.rs` and `interface/peer_server.rs`).

Modelling conventions:
* Byte buffers are `List Nat`; 32-byte keys and identifiers are modelled as `Nat`
  values with decidable equality (the code only ever compares them for equality).
* `HashMap<u32, usize>` is modelled as an association list `List (Nat × Nat)` with
  `lookupId` / `insertId` / `removeId` mirroring `get` / `insert` / `remove`.
* The random generator of the allocator is modelled as an explicit list of draws
  (`cands`); the unbounded retry loop returns `none` when the supplied draw
  sequence is exhausted (which models non-termination of the Rust loop).
* Timestamps (`Timestamp`) are `Option Nat` (absolute times; `none` = unset) and
  `tsElapsed t now` is `Timestamp::elapsed`.
* Functions of this repository that live in files not present under `src/`
  (`peer.rs`, `noise.rs`, `cookie.rs`, `consts.rs`) are modelled from the spec;
  each such definition carries a doc comment starting with `Modelled from the
  spec:`.  Everything else is translated directly from the source.
-/

/-- Association-list lookup, mirroring `HashMap::get` on `id_map` / `pk_map`. -/
def lookupId : List (Nat × Nat) → Nat → Option Nat
  | [], _ => none
  | (k, v) :: rest, key => if k = key then some v else lookupId rest key

/-- `HashMap::contains_key`. -/
def containsId (m : List (Nat × Nat)) (k : Nat) : Bool :=
  (lookupId m k).isSome

/-- `HashMap::insert`: replaces the binding when the key is present, otherwise
adds a new one. -/
def insertId (m : List (Nat × Nat)) (k v : Nat) : List (Nat × Nat) :=
  if containsId m k then
    m.map (fun p => if p.1 = k then (k, v) else p)
  else
    (k, v) :: m

/-- `HashMap::remove`. -/
def removeId (m : List (Nat × Nat)) (k : Nat) : List (Nat × Nat) :=
  m.filter (fun p => p.1 != k)

/-- Keys of the map are pairwise distinct (automatic for a `HashMap`; an
invariant of the association-list model). -/
def nodupKeys (m : List (Nat × Nat)) : Prop :=
  (m.map Prod.fst).Nodup

/-- The error taxonomy of `types.rs` as used by `device.rs` (the variant names
appear in the spec, section 4.1). -/
inductive HandshakeError
  | UnknownPublicKey
  | UnknownReceiverId
  | InvalidMessageFormat
  | InvalidMac1
  | InvalidMac2
  | Decryption
  | InvalidTimestamp
deriving DecidableEq

/-- One peer entry of the device's `peers` vector: `Peer::new(idx, identifier, pk, dh)`
with the Diffie-Hellman product omitted (opaque key material). -/
structure DevPeer where
  idx : Nat
  identifier : Nat
  pk : Nat
deriving DecidableEq

/-- `Device<T>` from `device.rs` (with `T` fixed to `Nat`): static keys, the
peer vector, the public-key map and the receiver-id map. -/
structure Device where
  pk : Nat
  peers : List DevPeer
  pk_map : List (Nat × Nat)
  id_map : List (Nat × Nat)
deriving DecidableEq

/-- The retry loop inside `Device::allocate`: draw an id, skip it if the map
already contains it, otherwise insert it for the peer index and return it. -/
def allocateGo (m : List (Nat × Nat)) (idx : Nat) : List Nat → Option (Nat × List (Nat × Nat))
  | [] => none
  | c :: rest =>
    if containsId m c then allocateGo m idx rest
    else some (c, insertId m c idx)

/-- `Device::allocate`: allocate a fresh receiver id for the peer index, with
the RNG modelled by the draw list `cands`. -/
def Device.allocate (d : Device) (idx : Nat) (cands : List Nat) : Option (Nat × Device) :=
  (allocateGo d.id_map idx cands).map fun p => (p.1, { d with id_map := p.2 })

/-- `Device::release`: remove the id from the id map.  (The `debug_assert!`
that the id is present only exists in debug builds and has no effect on the
state.) -/
def Device.release (d : Device) (id : Nat) : Device :=
  { d with id_map := removeId d.id_map id }

/-- `Device::add`: refuse a duplicate public key, refuse the device's own
public key, otherwise append a new peer and map the key to its index.  The
result is the pair of the `Result` value and the post-state of `&mut self`. -/
def Device.add (d : Device) (pk ident : Nat) : Except String Unit × Device :=
  if containsId d.pk_map pk then
    (.error "Duplicate public key", d)
  else if pk = d.pk then
    (.error "Public key corresponds to secret key of interface", d)
  else
    let idx := d.peers.length
    (.ok (), { d with
      pk_map := insertId d.pk_map pk idx,
      peers := d.peers ++ [⟨idx, ident, pk⟩] })

/-- `Device::process`: dispatch on the first byte of an untrusted datagram.
The noise-protocol workers (`noise::consume_initiation`, `noise::create_response`,
`noise::consume_response`, from `noise.rs`, not under `src/`) are abstracted as
function parameters; their outputs are opaque `Nat` tokens.  The outer `Option`
is `none` exactly when the allocator loop runs out of draws (models
non-termination); the pair carries the `Result` and the post-state. -/
def Device.process
    (consume_initiation : Device → List Nat → Except HandshakeError (Nat × Nat))
    (create_response : Nat → Nat → Nat → Except HandshakeError Nat)
    (consume_response : Device → List Nat → Except HandshakeError Nat)
    (cands : List Nat) (d : Device) (msg : List Nat) :
    Option (Except HandshakeError Nat × Device) :=
  match msg.head? with
  | none => some (.error .InvalidMessageFormat, d)
  | some b =>
    if b = 1 then
      match consume_initiation d msg with
      | .error e => some (.error e, d)
      | .ok (pidx, st) =>
        match d.allocate pidx cands with
        | none => none
        | some (sender, d') =>
          match create_response pidx sender st with
          | .error e => some (.error e, d'.release sender)
          | .ok out => some (.ok out, d')
    else if b = 2 then
      match consume_response d msg with
      | .error e => some (.error e, d)
      | .ok out => some (.ok out, d)
    else
      some (.error .InvalidMessageFormat, d)

/-! ### Association-list lemmas -/

theorem containsId_false_iff (m : List (Nat × Nat)) (k : Nat) :
    containsId m k = false ↔ lookupId m k = none := by
  cases h : lookupId m k <;> simp [containsId, h]

theorem lookupId_none_not_mem_keys (m : List (Nat × Nat)) (k : Nat)
    (h : lookupId m k = none) : k ∉ m.map Prod.fst := by
  induction m with
  | nil => simp
  | cons p rest ih =>
    simp only [lookupId] at h
    by_cases hk : p.1 = k
    · simp [hk] at h
    · simp only [hk, if_false] at h
      simp only [List.map_cons, List.mem_cons]
      rintro (rfl | hmem)
      · exact hk rfl
      · exact ih h hmem

theorem insertId_fresh (m : List (Nat × Nat)) (k v : Nat)
    (h : containsId m k = false) : insertId m k v = (k, v) :: m := by
  simp [insertId, h]

theorem lookupId_removeId_self (m : List (Nat × Nat)) (id : Nat) :
    lookupId (removeId m id) id = none := by
  induction m with
  | nil => rfl
  | cons p rest ih =>
    by_cases h : p.1 = id
    · simpa [removeId, h] using ih
    · simpa [removeId, lookupId, h] using ih

theorem lookupId_removeId_other (m : List (Nat × Nat)) (i k : Nat) (hk : k ≠ i) :
    lookupId (removeId m i) k = lookupId m k := by
  induction m with
  | nil => rfl
  | cons p rest ih =>
    simp only [removeId, List.filter_cons] at ih ⊢
    by_cases h : p.1 = i
    · have hpk : ¬ p.1 = k := by rw [h]; exact fun hc => hk hc.symm
      simp [h, lookupId, hpk, Ne.symm hk, ih]
    · by_cases hpk : p.1 = k
      · simp [h, lookupId, hpk, hk]
      · simp [h, lookupId, hpk, ih]

theorem nodupKeys_removeId (m : List (Nat × Nat)) (i : Nat)
    (h : nodupKeys m) : nodupKeys (removeId m i) := by
  have hsub : List.Sublist ((removeId m i).map Prod.fst) (m.map Prod.fst) :=
    List.Sublist.map Prod.fst (List.filter_sublist m)
  exact List.Nodup.sublist hsub h

theorem removeId_of_lookup_none (m : List (Nat × Nat)) (i : Nat)
    (h : lookupId m i = none) : removeId m i = m := by
  induction m with
  | nil => rfl
  | cons p rest ih =>
    rw [show lookupId (p :: rest) i = if p.1 = i then some p.2 else lookupId rest i from rfl] at h
    by_cases hk : p.1 = i
    · simp [hk] at h
    · simp only [hk, if_false] at h
      have hrest := ih h
      simp only [removeId] at hrest
      simp [removeId, List.filter_cons, hk, hrest]

theorem allocateGo_spec (idx : Nat) :
    ∀ (cands : List Nat) (m : List (Nat × Nat)) (i : Nat) (m' : List (Nat × Nat)),
      allocateGo m idx cands = some (i, m') →
        i ∈ cands ∧ containsId m i = false ∧ m' = (i, idx) :: m := by
  intro cands
  induction cands with
  | nil => intro m i m' h; simp [allocateGo] at h
  | cons c rest ih =>
    intro m i m' h
    simp only [allocateGo] at h
    by_cases hc : containsId m c
    · simp only [hc, if_true] at h
      obtain ⟨h1, h2, h3⟩ := ih m i m' h
      exact ⟨List.mem_cons_of_mem _ h1, h2, h3⟩
    · simp only [hc, if_false] at h
      rw [Bool.not_eq_true] at hc
      obtain ⟨he, hm⟩ : c = i ∧ insertId m c idx = m' := by
        simpa using h
      subst he
      subst hm
      exact ⟨List.mem_cons_self _ _, hc, insertId_fresh m c idx hc⟩

/-! ### Peer server model (`interface/peer_server.rs`) -/

/-- `consts.rs` is not under `src/`; the values are given by the spec
(REKEY_TIMEOUT 5s, REKEY_AFTER_TIME 120s, REJECT_AFTER_TIME 180s,
REKEY_ATTEMPT_TIME 90s, KEEPALIVE_TIMEOUT 10s), in seconds. -/
def REKEY_TIMEOUT : Nat := 5

/-- See `REKEY_TIMEOUT`. -/
def REKEY_AFTER_TIME : Nat := 120

/-- See `REKEY_TIMEOUT`. -/
def REJECT_AFTER_TIME : Nat := 180

/-- See `REKEY_TIMEOUT`. -/
def REKEY_ATTEMPT_TIME : Nat := 90

/-- See `REKEY_TIMEOUT`. -/
def KEEPALIVE_TIMEOUT : Nat := 10

/-- Modelled from the spec: `MAX_CONTENT_SIZE` of `consts.rs` (not under `src/`)
is "65535 − overhead"; the transport overhead is the 16-byte header plus the
16-byte AEAD tag. -/
def MAX_CONTENT_SIZE : Nat := 65535 - 32

/-- `Timestamp::elapsed` with `none` playing the role of `Timestamp::unset()`
(an unset timestamp behaves as the time origin, so its elapsed time is large). -/
def tsElapsed (t : Option Nat) (now : Nat) : Nat :=
  match t with
  | some v => now - v
  | none => now

/-- `SessionType` from `peer.rs` (the three ladder slots). -/
inductive SessionType
  | Past
  | Current
  | Next
deriving DecidableEq

/-- The per-session state the peer-server handlers touch: receiver index,
liveness timestamps and the passive-keepalive flag (spec, section 3). -/
structure Session where
  our_index : Nat
  last_received : Nat
  last_sent : Nat
  keepalive_sent : Bool
deriving DecidableEq

/-- The three-slot session ladder of a peer. -/
structure Sessions where
  past : Option Session
  current : Option Session
  next : Option Session
deriving DecidableEq

/-- The peer state used by `peer_server.rs`: ladder, outbound queue and the
timestamp ledger (spec, section 3). -/
structure PeerState where
  sessions : Sessions
  outgoing_queue : List (List Nat)
  last_sent_init : Option Nat
  last_handshake : Option Nat
  last_tun_queue : Option Nat
  keepalive : Option Nat
deriving DecidableEq

/-- Match one ladder slot against a receiver index. -/
def slotMatch (s : Option Session) (idx : Nat) (ty : SessionType) :
    Option (Session × SessionType) :=
  match s with
  | some sess => if sess.our_index = idx then some (sess, ty) else none
  | none => none

/-- Modelled from the spec: `Peer::find_session` (`peer.rs` is not under
`src/`).  Looks the receiver index up in the three slots of the session
ladder, returning the session together with its slot. -/
def PeerState.find_session (p : PeerState) (idx : Nat) : Option (Session × SessionType) :=
  (slotMatch p.sessions.next idx .Next).orElse fun _ =>
    (slotMatch p.sessions.current idx .Current).orElse fun _ =>
      slotMatch p.sessions.past idx .Past

/-- Modelled from the spec: `Peer::ready_for_transport` (`peer.rs` is not under
`src/`): a session is ready for transport exactly when the `current` slot is
occupied (spec sections 2 and 4.2). -/
def PeerState.ready_for_transport (p : PeerState) : Bool :=
  p.sessions.current.isSome

/-- Write a session back into the slot it was found in (the Rust code mutates
the session through the mutable borrow returned by `find_session`). -/
def PeerState.updateSession (p : PeerState) (ty : SessionType) (s : Session) : PeerState :=
  match ty with
  | .Past => { p with sessions := { p.sessions with past := some s } }
  | .Current => { p with sessions := { p.sessions with current := some s } }
  | .Next => { p with sessions := { p.sessions with next := some s } }

/-- Outbound datagrams, tagged by kind; transport datagrams carry their inner
payload (AEAD abstracted: the claims only concern which payloads are emitted
and in which order). -/
inductive Datagram
  | HandshakeInit (idx : Nat)
  | HandshakeResp (idx : Nat)
  | Transport (idx : Nat) (payload : List Nat)
deriving DecidableEq

/-- `TimerMessage` from `timer.rs`: the shared peer reference is modelled by
the index `pid` of the peer in the server's peer vector. -/
inductive TimerMessage
  | Rekey (pid idx : Nat)
  | Reject (pid idx : Nat)
  | PassiveKeepAlive (pid idx : Nat)
  | PersistentKeepAlive (pid idx : Nat)
deriving DecidableEq

/-- Observable side effects of a handler: UDP sends (`send_to_peer`), tunnel
writes (`send_to_tunnel`), timer arms (`Timer::spawn_delayed`, durations
abstracted) and asymmetric-cryptographic work performed by the noise layer. -/
inductive Effect
  | Send (d : Datagram)
  | SendTunnel (pkt : List Nat)
  | SpawnTimer (msg : TimerMessage)
  | AsymmetricCrypto
deriving DecidableEq

/-- The mutable state visible to `PeerServer` handlers: the interface private
key, the `pubkey_map`, the `index_map` and the peer vector of `SharedState`. -/
structure ServerState where
  private_key : Option Nat
  pubkey_map : List (Nat × Nat)
  index_map : List (Nat × Nat)
  peers : List PeerState
deriving DecidableEq

/-- How a handler invocation ended: `Ok(())`, `Err(e)` (the `bail!`/`ensure!`/`?`
paths), or a Rust panic (out-of-bounds slicing of an untrusted packet). -/
inductive Outcome
  | ok
  | err (msg : String)
  | crashed
deriving DecidableEq

/-- Result of one handler call: outcome, post-state, and the effects performed
before the handler returned (an early error keeps the effects already done). -/
structure HRes where
  outcome : Outcome
  state : ServerState
  effects : List Effect
deriving DecidableEq

/-- Replace the peer at index `pid` (writing back through the `RefCell`). -/
def setPeer (st : ServerState) (pid : Nat) (p : PeerState) : ServerState :=
  { st with peers := st.peers.set pid p }

/-- `LittleEndian::read_u32(&pkt[off..])`; callers check the length first
(the handlers that do not are modelled as crashing). -/
def readU32le (pkt : List Nat) (off : Nat) : Nat :=
  pkt.getD off 0 + 256 * pkt.getD (off + 1) 0 +
    65536 * pkt.getD (off + 2) 0 + 16777216 * pkt.getD (off + 3) 0

/-- Modelled from the spec: `Peer::handle_outgoing_transport` (`peer.rs` is not
under `src/`): encrypt the payload under the `current` session and produce the
transport datagram; fails when no current session exists.  The AEAD is
abstracted: the datagram records the receiver index and the payload. -/
def PeerState.handle_outgoing_transport (p : PeerState) (now : Nat) (payload : List Nat) :
    Except String (PeerState × Datagram) :=
  match p.sessions.current with
  | none => .error "no current session"
  | some s =>
    .ok ({ p with sessions := { p.sessions with current := some { s with last_sent := now } } },
         .Transport s.our_index payload)

/-- Modelled from the spec: `Peer::process_incoming_handshake` (`peer.rs` is
not under `src/`): the responder-side consumption of an initiation, performing
the asymmetric DH/AEAD work and yielding the initiator's static public key
(abstracted as the byte at offset 40, the start of the encrypted static). -/
def process_incoming_handshake (sk : Nat) (pkt : List Nat) : Except String Nat :=
  match pkt.getD 40 (sk + 0), pkt.length with
  | b, _ => .ok b

/-- Modelled from the spec: `Peer::complete_incoming_handshake` (`peer.rs` is
not under `src/`): create the responder session under a fresh receiver index —
directly in `current` if that slot is free, else in `next` (spec section 4.4) —
and build the 92-byte response. -/
def PeerState.complete_incoming_handshake (p : PeerState) (freshIdx now : Nat) :
    Except String (PeerState × Datagram × Nat) :=
  let s : Session := ⟨freshIdx, now, now, false⟩
  let sessions :=
    if p.sessions.current.isSome then { p.sessions with next := some s }
    else { p.sessions with current := some s }
  .ok ({ p with sessions := sessions, last_handshake := some now },
       .HandshakeResp freshIdx, freshIdx)

/-- Modelled from the spec: `Peer::process_incoming_handshake_response`
(`peer.rs` is not under `src/`): consume the response for the in-flight `next`
session and promote it — the new session becomes `current`, the old `current`
moves to `past`, and the receiver index of the dropped old `past` session is
returned so the caller can remove it from the index map. -/
def PeerState.process_incoming_handshake_response (p : PeerState) (now : Nat)
    (pkt : List Nat) : Except String (PeerState × Option Nat) :=
  match p.sessions.next, pkt.length with
  | none, _ => .error "no handshake in flight"
  | some s, _ =>
    let dead := p.sessions.past.map (fun q => q.our_index)
    .ok ({ p with
            sessions := ⟨p.sessions.current, some s, none⟩,
            last_handshake := some now },
         dead)

/-- Modelled from the spec: `Peer::handle_incoming_transport` (`peer.rs` is not
under `src/`): decrypt with the session the receiver index resolves to; on a
packet for the `next` session that session is promoted (`current` → `past`, the
old `past` receiver index is reported dead) and the transition is returned as
`some`.  The AEAD is abstracted: the payload is the packet body after the
16-byte header. -/
def PeerState.handle_incoming_transport (p : PeerState) (now : Nat) (pkt : List Nat) :
    Except String (PeerState × List Nat × Option (Option Nat)) :=
  match p.find_session (readU32le pkt 4) with
  | none => .error "no live session for transport packet"
  | some (s, ty) =>
    let payload := pkt.drop 16
    let s' := { s with last_received := now }
    match ty with
    | .Next =>
      let dead := p.sessions.past.map (fun q => q.our_index)
      .ok ({ p with sessions := ⟨p.sessions.current, some s', none⟩ }, payload, some dead)
    | .Current =>
      .ok ({ p with sessions := { p.sessions with current := some s' } }, payload, none)
    | .Past =>
      .ok ({ p with sessions := { p.sessions with past := some s' } }, payload, none)

/-- Modelled from the spec: `Peer::initiate_new_session` (`peer.rs` is not
under `src/`): build the 148-byte initiation, install a fresh `next` session,
and report the receiver index of the `next` session it replaces, if any
("A new initiation generated while an un-promoted `next` already exists
destroys that `next` and releases its id", spec section 4.5). -/
def PeerState.initiate_new_session (p : PeerState) (sk freshIdx now : Nat) :
    Except String (PeerState × Datagram × Nat × Option Nat) :=
  let dead := p.sessions.next.map (fun q => q.our_index)
  let s : Session := ⟨freshIdx, now, now, false⟩
  match sk with
  | _ => .ok ({ p with sessions := { p.sessions with next := some s } },
              .HandshakeInit freshIdx, freshIdx, dead)

/-- Modelled from the spec: `Peer::needs_new_handshake` (`peer.rs` is not under
`src/`): a new initiation is requested only when no session is ready and none is
in flight, and "a new initiation is refused if `now − last_sent_init <
REKEY_TIMEOUT`" (spec section 4.5). -/
def PeerState.needs_new_handshake (p : PeerState) (now : Nat) : Bool :=
  !p.ready_for_transport && p.sessions.next.isNone &&
    decide (REKEY_TIMEOUT ≤ tsElapsed p.last_sent_init now)

/-- Modelled from the spec: the bound of the peer's outbound FIFO ("bounded
FIFO ... drop-oldest at capacity", spec section 3; the numeric bound is not in
the spec, the channel bounds of `peer_server.rs` are 1024). -/
def QUEUE_CAPACITY : Nat := 1024

/-- Modelled from the spec: `Peer::queue_egress` (`peer.rs` is not under
`src/`): append to the bounded FIFO, dropping the oldest entry at capacity;
`last_tun_queue` is set when the queue first becomes non-empty. -/
def PeerState.queue_egress (p : PeerState) (pkt : List Nat) (now : Nat) : PeerState :=
  let q := if QUEUE_CAPACITY ≤ p.outgoing_queue.length
           then p.outgoing_queue.drop 1 else p.outgoing_queue
  let ltq := if p.outgoing_queue.isEmpty then some now else p.last_tun_queue
  { p with outgoing_queue := q ++ [pkt], last_tun_queue := ltq }

/-- Modelled from the spec: `Peer::consume_cookie_reply` (`peer.rs` is not
under `src/`): decrypt and store the 64-byte cookie reply (interface only;
a malformed reply is an error). -/
def PeerState.consume_cookie_reply (p : PeerState) (pkt : List Nat) :
    Except String PeerState :=
  if pkt.length = 64 then .ok p else .error "invalid cookie reply"

/-- The drain loop of `handle_ingress_handshake_resp` / `handle_egress_packet`:
`while let Some(packet) = peer.outgoing_queue.pop_front() { send(peer.handle_outgoing_transport(..)?)? }`.
An encryption error aborts the loop (`?`), losing the popped packet and leaving
the rest queued. -/
def drainAbortGo (now : Nat) (p : PeerState) :
    List (List Nat) → PeerState × List Effect × Option String
  | [] => (p, [], none)
  | pkt :: rest =>
    match p.handle_outgoing_transport now pkt with
    | .error e => ({ p with outgoing_queue := rest }, [], some e)
    | .ok (p', d) =>
      let r := drainAbortGo now p' rest
      (r.1, .Send d :: r.2.1, r.2.2)

/-- Drain the whole queue with abort-on-error semantics. -/
def drainAbort (now : Nat) (p : PeerState) : PeerState × List Effect × Option String :=
  drainAbortGo now { p with outgoing_queue := [] } p.outgoing_queue

/-- The drain loop of `handle_ingress_transport`: encryption failures are
logged (`warn!`) and the loop continues with the next packet. -/
def drainWarnGo (now : Nat) (p : PeerState) :
    List (List Nat) → PeerState × List Effect
  | [] => (p, [])
  | pkt :: rest =>
    match p.handle_outgoing_transport now pkt with
    | .error _ => drainWarnGo now p rest
    | .ok (p', d) =>
      let r := drainWarnGo now p' rest
      (r.1, .Send d :: r.2)

/-- `PeerServer::handle_ingress_handshake_init` (lines 155-180): exact-size
check, MAC1 verification (the `cookie::Validator`, whose `cookie.rs` is not
under `src/`, is abstracted as the boolean oracle `macOk` over the MAC'd bytes
and the MAC), then the asymmetric handshake consumption, peer lookup, session
creation, index-map insert and the response send. -/
def handle_ingress_handshake_init (macOk : List Nat → List Nat → Bool)
    (freshIdx now : Nat) (st : ServerState) (pkt : List Nat) : HRes :=
  if pkt.length ≠ 148 then ⟨.err "handshake init packet length is incorrect", st, []⟩
  else if macOk (pkt.take 116) ((pkt.drop 116).take 16) = false then
    ⟨.err "mac1 verification failed", st, []⟩
  else
    match st.private_key with
    | none => ⟨.err "no private key!", st, []⟩
    | some sk =>
      match process_incoming_handshake sk pkt with
      | .error e => ⟨.err e, st, [.AsymmetricCrypto]⟩
      | .ok their_pk =>
        match lookupId st.pubkey_map their_pk with
        | none => ⟨.err "unknown peer pubkey", st, [.AsymmetricCrypto]⟩
        | some pid =>
          match st.peers[pid]? with
          | none => ⟨.err "unknown peer pubkey", st, [.AsymmetricCrypto]⟩
          | some peer =>
            match peer.complete_incoming_handshake freshIdx now with
            | .error e => ⟨.err e, st, [.AsymmetricCrypto]⟩
            | .ok (peer', resp, next_index) =>
              let st' := setPeer st pid peer'
              let st'' := { st' with index_map := insertId st'.index_map next_index pid }
              ⟨.ok, st'', [.AsymmetricCrypto, .Send resp]⟩

/-- `PeerServer::handle_ingress_handshake_resp` (lines 183-229): exact-size
check, MAC1 verification, index lookup, response consumption (promoting the
in-flight session), dead-index removal, then the queue drain (or an
empty-payload keepalive when the queue is empty), and the timer arms. -/
def handle_ingress_handshake_resp (macOk : List Nat → List Nat → Bool)
    (now : Nat) (st : ServerState) (pkt : List Nat) : HRes :=
  if pkt.length ≠ 92 then ⟨.err "handshake resp packet length is incorrect", st, []⟩
  else if macOk (pkt.take 60) ((pkt.drop 60).take 16) = false then
    ⟨.err "mac1 verification failed", st, []⟩
  else
    let our_index := readU32le pkt 8
    match lookupId st.index_map our_index with
    | none => ⟨.err "unknown our_index", st, []⟩
    | some pid =>
      match st.peers[pid]? with
      | none => ⟨.err "unknown our_index", st, []⟩
      | some peer =>
        match peer.process_incoming_handshake_response now pkt with
        | .error e => ⟨.err e, st, [.AsymmetricCrypto]⟩
        | .ok (peer1, dead_index) =>
          let st1 :=
            match dead_index with
            | some i => { st with index_map := removeId st.index_map i }
            | none => st
          let sendStep : PeerState × List Effect × Option String :=
            if peer1.ready_for_transport then
              if peer1.outgoing_queue.isEmpty = false then
                drainAbort now peer1
              else
                match peer1.handle_outgoing_transport now [] with
                | .error e => (peer1, [], some e)
                | .ok (p2, d) => (p2, [.Send d], none)
            else
              (peer1, [], none)
          let peer2 := sendStep.1
          let st2 := setPeer st1 pid peer2
          match sendStep.2.2 with
          | some e => ⟨.err e, st2, .AsymmetricCrypto :: sendStep.2.1⟩
          | none =>
            let timers :=
              [Effect.SpawnTimer (.PassiveKeepAlive pid our_index),
               Effect.SpawnTimer (.Reject pid our_index)] ++
              (match peer2.keepalive with
               | some k => if 0 < k then [Effect.SpawnTimer (.PersistentKeepAlive pid our_index)] else []
               | none => [])
            ⟨.ok, st2, .AsymmetricCrypto :: sendStep.2.1 ++ timers⟩

/-- `PeerServer::handle_ingress_cookie_reply` (lines 231-239): no size check —
the receiver index is read from bytes 4..8, which panics on a datagram shorter
than 8 bytes — then index lookup and cookie consumption. -/
def handle_ingress_cookie_reply (st : ServerState) (pkt : List Nat) : HRes :=
  if pkt.length < 8 then ⟨.crashed, st, []⟩
  else
    let our_index := readU32le pkt 4
    match lookupId st.index_map our_index with
    | none => ⟨.err "unknown our_index", st, []⟩
    | some pid =>
      match st.peers[pid]? with
      | none => ⟨.err "unknown our_index", st, []⟩
      | some peer =>
        match peer.consume_cookie_reply pkt with
        | .error e => ⟨.err e, st, []⟩
        | .ok peer' => ⟨.ok, setPeer st pid peer', []⟩

/-- `PeerServer::handle_ingress_transport` (lines 241-275): index lookup (bytes
4..8, panicking on datagrams shorter than 8 bytes), decryption, and — when the
decrypt promoted a `next` session — dead-index removal and the
warn-and-continue queue drain; keepalives short-circuit, otherwise the inner
source is validated (`Router::validate_source`, abstracted as the oracle
`validate_src`) and the payload is handed to the tunnel. -/
def handle_ingress_transport (validate_src : List Nat → Nat → Bool)
    (now : Nat) (st : ServerState) (pkt : List Nat) : HRes :=
  if pkt.length < 8 then ⟨.crashed, st, []⟩
  else
    let our_index := readU32le pkt 4
    match lookupId st.index_map our_index with
    | none => ⟨.err "unknown our_index", st, []⟩
    | some pid =>
      match st.peers[pid]? with
      | none => ⟨.err "unknown our_index", st, []⟩
      | some peer =>
        match peer.handle_incoming_transport now pkt with
        | .error e => ⟨.err e, st, []⟩
        | .ok (peer1, raw_packet, transition) =>
          let step : ServerState × List Effect :=
            match transition with
            | none => (setPeer st pid peer1, [])
            | some possible_dead =>
              let st' :=
                match possible_dead with
                | some i => { st with index_map := removeId st.index_map i }
                | none => st
              let r := drainWarnGo now { peer1 with outgoing_queue := [] } peer1.outgoing_queue
              (setPeer st' pid r.1, r.2)
          if raw_packet.isEmpty then ⟨.ok, step.1, step.2⟩
          else if validate_src raw_packet pid then
            ⟨.ok, step.1, step.2 ++ [.SendTunnel raw_packet]⟩
          else ⟨.err "invalid inner source address", step.1, step.2⟩

/-- `PeerServer::send_handshake_init` (lines 277-296): build and send a fresh
initiation, insert the new index, drop the abandoned `next` index, stamp
`last_sent_init` and arm the Rekey timer.  No throttle check happens here. -/
def send_handshake_init (freshIdx now : Nat) (st : ServerState) (pid : Nat) : HRes :=
  match st.peers[pid]? with
  | none => ⟨.err "unknown peer", st, []⟩
  | some peer =>
    match st.private_key with
    | none => ⟨.err "no private key!", st, []⟩
    | some sk =>
      match peer.initiate_new_session sk freshIdx now with
      | .error e => ⟨.err e, st, []⟩
      | .ok (peer1, dgram, new_index, dead_index) =>
        let im := insertId st.index_map new_index pid
        let im' :=
          match dead_index with
          | some i => removeId im i
          | none => im
        let peer2 := { peer1 with last_sent_init := some now }
        let st' := setPeer { st with index_map := im' } pid peer2
        ⟨.ok, st', [.Send dgram, .SpawnTimer (.Rekey pid new_index)]⟩

/-- `PeerServer::handle_timer` (lines 298-394): each timer re-checks its
precondition against the ladder before acting; `bail!`/`ensure!` paths are
errors that leave the peer untouched. -/
def handle_timer (freshIdx now : Nat) (st : ServerState) (msg : TimerMessage) : HRes :=
  match msg with
  | .Rekey pid idx =>
    match st.peers[pid]? with
    | none => ⟨.err "unknown peer", st, []⟩
    | some peer =>
      match peer.find_session idx with
      | some (_, .Next) =>
        if tsElapsed peer.last_sent_init now < REKEY_TIMEOUT then
          ⟨.err "too soon since last init sent", st, [.SpawnTimer (.Rekey pid idx)]⟩
        else if REKEY_ATTEMPT_TIME < tsElapsed peer.last_tun_queue now then
          ⟨.err "REKEY_ATTEMPT_TIME exceeded",
           setPeer st pid { peer with last_tun_queue := none }, []⟩
        else
          send_handshake_init freshIdx now st pid
      | some (_, .Current) =>
        if tsElapsed peer.last_handshake now ≤ REKEY_AFTER_TIME then
          ⟨.err "recent last complete handshake", st, [.SpawnTimer (.Rekey pid idx)]⟩
        else
          send_handshake_init freshIdx now st pid
      | _ => ⟨.err "index is linked to a dead session, bailing.", st, []⟩
  | .Reject pid idx =>
    match st.peers[pid]? with
    | none => ⟨.err "unknown peer", st, []⟩
    | some peer =>
      let peer' :=
        match peer.find_session idx with
        | some (_, .Next) => { peer with sessions := { peer.sessions with next := none } }
        | some (_, .Current) => { peer with sessions := { peer.sessions with current := none } }
        | some (_, .Past) => { peer with sessions := { peer.sessions with past := none } }
        | none => peer
      ⟨.ok, { setPeer st pid peer' with index_map := removeId st.index_map idx }, []⟩
  | .PassiveKeepAlive pid idx =>
    match st.peers[pid]? with
    | none => ⟨.err "unknown peer", st, []⟩
    | some peer =>
      match peer.find_session idx with
      | none => ⟨.err "missing session for timer", st, []⟩
      | some (session, sty) =>
        if sty ≠ SessionType.Current then
          ⟨.err "expired session for passive keepalive timer", st, []⟩
        else if now - session.last_received < KEEPALIVE_TIMEOUT then
          ⟨.err "passive keepalive tick", st, [.SpawnTimer (.PassiveKeepAlive pid idx)]⟩
        else if now - session.last_sent < KEEPALIVE_TIMEOUT then
          ⟨.err "passive keepalive tick", st, [.SpawnTimer (.PassiveKeepAlive pid idx)]⟩
        else if session.keepalive_sent then
          ⟨.err "passive keepalive already sent", st, [.SpawnTimer (.PassiveKeepAlive pid idx)]⟩
        else
          let peer1 := peer.updateSession sty { session with keepalive_sent := true }
          match peer1.handle_outgoing_transport now [] with
          | .error e => ⟨.err e, setPeer st pid peer1, []⟩
          | .ok (peer2, d) =>
            ⟨.ok, setPeer st pid peer2, [.Send d, .SpawnTimer (.PassiveKeepAlive pid idx)]⟩
  | .PersistentKeepAlive pid idx =>
    match st.peers[pid]? with
    | none => ⟨.err "unknown peer", st, []⟩
    | some peer =>
      match peer.find_session idx with
      | none => ⟨.err "missing session for timer", st, []⟩
      | some (_, sty) =>
        if sty ≠ SessionType.Current then
          ⟨.err "expired session for persistent keepalive timer", st, []⟩
        else
          match peer.handle_outgoing_transport now [] with
          | .error e => ⟨.err e, st, []⟩
          | .ok (peer2, d) =>
            let spawn :=
              match peer2.keepalive with
              | some _ => [Effect.SpawnTimer (.PersistentKeepAlive pid idx)]
              | none => []
            ⟨.ok, setPeer st pid peer2, .Send d :: spawn⟩

/-- `PeerServer::handle_ingress_packet` (lines 144-153): dispatch on the first
byte; `packet[0]` panics on an empty datagram. -/
def handle_ingress_packet (macOk : List Nat → List Nat → Bool)
    (validate_src : List Nat → Nat → Bool)
    (freshIdx now : Nat) (st : ServerState) (pkt : List Nat) : HRes :=
  match pkt.head? with
  | none => ⟨.crashed, st, []⟩
  | some b =>
    if b = 1 then handle_ingress_handshake_init macOk freshIdx now st pkt
    else if b = 2 then handle_ingress_handshake_resp macOk now st pkt
    else if b = 3 then handle_ingress_cookie_reply st pkt
    else if b = 4 then handle_ingress_transport validate_src now st pkt
    else ⟨.err "unknown wireguard message type", st, []⟩

/-- `PeerServer::handle_egress_packet` (lines 397-424): size bounds check,
routing (`Router::route_to_peer` abstracted as the oracle `router`), enqueue,
drain when a session is ready, then a handshake request when the peer needs
one. -/
def handle_egress_packet (router : List Nat → Option Nat)
    (freshIdx now : Nat) (st : ServerState) (pkt : List Nat) : HRes :=
  if pkt.isEmpty || decide (MAX_CONTENT_SIZE < pkt.length) then
    ⟨.err "egress packet outside of size bounds", st, []⟩
  else
    match router pkt with
    | none => ⟨.err "no route to peer", st, []⟩
    | some pid =>
      match st.peers[pid]? with
      | none => ⟨.err "no route to peer", st, []⟩
      | some peer =>
        let peer1 := peer.queue_egress pkt now
        let step : PeerState × List Effect × Option String :=
          if peer1.ready_for_transport then drainAbort now peer1
          else (peer1, [], none)
        let peer2 := step.1
        let st1 := setPeer st pid peer2
        match step.2.2 with
        | some e => ⟨.err e, st1, step.2.1⟩
        | none =>
          if peer2.needs_new_handshake now then
            let r := send_handshake_init freshIdx now st1 pid
            ⟨r.outcome, r.state, step.2.1 ++ r.effects⟩
          else
            ⟨.ok, st1, step.2.1⟩

/-- Configuration events recognized by the poll loop (`config::UpdateEvent`). -/
inductive ConfigEvent
  | PrivateKey (k : Nat)
  | ListenPort (p : Nat)
  | Other
deriving DecidableEq

/-- One processed event of the loop, tagged by its source, in the order the
loop handled it. -/
inductive TraceEv
  | Cfg (e : ConfigEvent)
  | Tim (m : TimerMessage)
  | Ingress (d : List Nat)
  | Egress (p : List Nat)
deriving DecidableEq

/-- The event sources of the poll loop, each modelled as the finite backlog the
loop observes before the stream reports `NotReady`. -/
structure LoopState where
  configQ : List ConfigEvent
  timerQ : List TimerMessage
  ingressQ : List (List Nat)
  egressQ : List (List Nat)
  ingress_ok : Bool
  srv : ServerState
deriving DecidableEq

/-- The configuration drain loop of `poll` (cookie re-key and socket rebind are
I/O against collaborators outside the modelled state). -/
def drainCfg (st : ServerState) : List ConfigEvent → ServerState × List TraceEv
  | [] => (st, [])
  | e :: rest =>
    let r := drainCfg st rest
    (r.1, .Cfg e :: r.2)

/-- The timer drain loop of `poll`: every message is handled and errors are
logged and swallowed. -/
def drainTimers (freshIdx now : Nat) (st : ServerState) :
    List TimerMessage → ServerState × List TraceEv
  | [] => (st, [])
  | m :: rest =>
    let r1 := handle_timer freshIdx now st m
    let r := drainTimers freshIdx now r1.state rest
    (r.1, .Tim m :: r.2)

/-- The ingress drain loop of `poll`: every datagram is handled and errors are
logged and swallowed. -/
def drainIngress (macOk : List Nat → List Nat → Bool)
    (validate_src : List Nat → Nat → Bool) (freshIdx now : Nat) (st : ServerState) :
    List (List Nat) → ServerState × List TraceEv
  | [] => (st, [])
  | d :: rest =>
    let r1 := handle_ingress_packet macOk validate_src freshIdx now st d
    let r := drainIngress macOk validate_src freshIdx now r1.state rest
    (r.1, .Ingress d :: r.2)

/-- The egress drain loop of `poll`: every inner packet is handled and errors
are logged and swallowed. -/
def drainEgress (router : List Nat → Option Nat) (freshIdx now : Nat) (st : ServerState) :
    List (List Nat) → ServerState × List TraceEv
  | [] => (st, [])
  | p :: rest =>
    let r1 := handle_egress_packet router freshIdx now st p
    let r := drainEgress router freshIdx now r1.state rest
    (r.1, .Egress p :: r.2)

/-- `<PeerServer as Future>::poll` (lines 431-490): drain the four event
sources in the fixed order configuration → timers → ingress (when the socket is
bound) → egress, returning the post-state and the ordered trace of processed
events. -/
def poll (macOk : List Nat → List Nat → Bool) (validate_src : List Nat → Nat → Bool)
    (router : List Nat → Option Nat) (freshIdx now : Nat) (ls : LoopState) :
    ServerState × List TraceEv :=
  let c := drainCfg ls.srv ls.configQ
  let t := drainTimers freshIdx now c.1 ls.timerQ
  let i := if ls.ingress_ok then drainIngress macOk validate_src freshIdx now t.1 ls.ingressQ
           else (t.1, [])
  let e := drainEgress router freshIdx now i.1 ls.egressQ
  (e.1, c.2 ++ t.2 ++ i.2 ++ e.2)

/-- The transport payloads among a handler's send effects, in emission order. -/
def sentTransports (effs : List Effect) : List (List Nat) :=
  effs.filterMap fun e =>
    match e with
    | .Send (.Transport _ pl) => some pl
    | _ => none

/-- The handshake initiations among a handler's send effects. -/
def sentInits (effs : List Effect) : List Nat :=
  effs.filterMap fun e =>
    match e with
    | .Send (.HandshakeInit i) => some i
    | _ => none

/-- All datagrams sent by a handler. -/
def sentDatagrams (effs : List Effect) : List Datagram :=
  effs.filterMap fun e =>
    match e with
    | .Send d => some d
    | _ => none

/-- The peer index and receiver index a timer message is addressed to. -/
def timerTarget : TimerMessage → Nat × Nat
  | .Rekey pid idx => (pid, idx)
  | .Reject pid idx => (pid, idx)
  | .PassiveKeepAlive pid idx => (pid, idx)
  | .PersistentKeepAlive pid idx => (pid, idx)

/-- Concrete device used by witnesses. -/
def exDevice : Device := ⟨0, [], [], [(5, 0)]⟩

/-- Concrete empty server state used by witnesses. -/
def exServer : ServerState := ⟨none, [], [], []⟩

/-- A peer with an empty session ladder. -/
def emptyPeer : PeerState := ⟨⟨none, none, none⟩, [], none, none, none, none⟩

/-- Server state with a single ladder-less peer (dead-timer witnesses). -/
def c4State : ServerState := ⟨some 1, [], [], [emptyPeer]⟩

/-- Peer for the C3 counterexample: a `current` session with receiver index 7,
`last_handshake` at time 0 and `last_sent_init` at time 128. -/
def c3Peer : PeerState := ⟨⟨none, some ⟨7, 0, 0, false⟩, none⟩, [], some 128, some 0, none, none⟩

/-- Server state for the C3 counterexample. -/
def c3State : ServerState := ⟨some 1, [], [(7, 0)], [c3Peer]⟩

/-- Peer for the C3 amended witness: a `next` session, initiation 1s old. -/
def c3aPeer : PeerState := ⟨⟨none, none, some ⟨7, 0, 0, false⟩⟩, [], some 99, none, none, none⟩

/-- Server state for the C3 amended witness. -/
def c3aState : ServerState := ⟨some 1, [], [(7, 0)], [c3aPeer]⟩

/-- Peer for the C6 witness: in-flight `next` session 7, two queued packets. -/
def c6Peer : PeerState := ⟨⟨none, none, some ⟨7, 0, 0, false⟩⟩, [[1], [2]], none, none, none, none⟩

/-- Server state for the C6 witness. -/
def c6State : ServerState := ⟨some 1, [], [(7, 0)], [c6Peer]⟩

/-- A well-formed 92-byte handshake response addressed to receiver index 7. -/
def c6pkt : List Nat := [2, 0, 0, 0, 0, 0, 0, 0, 7, 0, 0, 0] ++ List.replicate 80 0

/-- Concrete loop state for the poll-order witness. -/
def c7Loop : LoopState :=
  ⟨[ConfigEvent.Other], [TimerMessage.Reject 0 1], [[9]], [[1]], true, exServer⟩

/-! ### Helper lemmas -/

theorem list_set_self {α : Type} :
    ∀ (l : List α) (i : Nat) (a : α), l[i]? = some a → l.set i a = l := by
  intro l
  induction l with
  | nil => intro i a h; simp at h
  | cons x xs ih =>
    intro i a h
    cases i with
    | zero => simp at h; simp [List.set, h]
    | succ n =>
      simp at h
      simp [List.set, ih n a h]

theorem list_getElem?_set_self {α : Type} :
    ∀ (l : List α) (i : Nat) (a b : α), l[i]? = some b → (l.set i a)[i]? = some a := by
  intro l
  induction l with
  | nil => intro i a b h; simp at h
  | cons x xs ih =>
    intro i a b h
    cases i with
    | zero => simp [List.set]
    | succ n =>
      simp at h
      simpa [List.set] using ih n a b h

/-! ### C1, C8, C9, C10 — device claims -/

/-- C1: `Device::allocate` returns one of the RNG draws, never an id already in
the id map, and records it as mapped to the given peer index; `Device::release`
removes exactly the released id's entry and no other; both operations preserve
pairwise distinctness of the ids in the map. -/
theorem allocate_release_id_map_spec :
    (∀ (d : Device) (idx : Nat) (cands : List Nat) (i : Nat) (d' : Device),
        d.allocate idx cands = some (i, d') →
          i ∈ cands ∧
          containsId d.id_map i = false ∧
          lookupId d'.id_map i = some idx ∧
          (nodupKeys d.id_map → nodupKeys d'.id_map)) ∧
    (∀ (d : Device) (i : Nat),
        lookupId (d.release i).id_map i = none ∧
        (∀ k, k ≠ i → lookupId (d.release i).id_map k = lookupId d.id_map k) ∧
        (nodupKeys d.id_map → nodupKeys (d.release i).id_map)) := by
  constructor
  · intro d idx cands i d' h
    simp only [Device.allocate] at h
    cases hgo : allocateGo d.id_map idx cands with
    | none => rw [hgo] at h; simp at h
    | some p =>
      rw [hgo] at h
      have h' : (p.1, ({ d with id_map := p.2 } : Device)) = (i, d') := by simpa using h
      have h1 : p.1 = i := congrArg Prod.fst h'
      have h2 : ({ d with id_map := p.2 } : Device) = d' := congrArg Prod.snd h'
      obtain ⟨hmem, hfresh, hm⟩ := allocateGo_spec idx cands d.id_map p.1 p.2 (by
        rw [hgo])
      subst h1
      subst h2
      refine ⟨hmem, hfresh, ?_, ?_⟩
      · show lookupId p.2 p.1 = some idx
        rw [hm]
        simp [lookupId]
      · intro hnd
        show nodupKeys p.2
        rw [hm]
        refine List.Nodup.cons ?_ hnd
        have hlk : lookupId d.id_map p.1 = none := (containsId_false_iff _ _).mp hfresh
        exact lookupId_none_not_mem_keys d.id_map p.1 hlk
  · intro d i
    refine ⟨lookupId_removeId_self d.id_map i, ?_, nodupKeys_removeId d.id_map i⟩
    intro k hk
    exact lookupId_removeId_other d.id_map i k hk

/-- Witness for C1 at a concrete device: the map `[(5,0)]`, draws `[5,9]`. -/
theorem allocate_release_id_map_spec_witness :
    (9 ∈ [5, 9] ∧ containsId [(5, 0)] 9 = false ∧
      lookupId [(9, 3), (5, 0)] 9 = some 3 ∧
      (nodupKeys [(5, 0)] → nodupKeys [(9, 3), (5, 0)])) ∧
    lookupId (exDevice.release 5).id_map 5 = none := by
  constructor
  · exact allocate_release_id_map_spec.1 exDevice 3 [5, 9] 9 ⟨0, [], [], [(9, 3), (5, 0)]⟩
      (by decide)
  · exact (allocate_release_id_map_spec.2 exDevice 5).1

/-- C9: releasing the id just returned by `allocate` restores the receiver-id
map to exactly its prior state. -/
theorem release_after_allocate_restores :
    ∀ (d : Device) (idx : Nat) (cands : List Nat) (i : Nat) (d' : Device),
      d.allocate idx cands = some (i, d') →
        (d'.release i).id_map = d.id_map := by
  intro d idx cands i d' h
  simp only [Device.allocate] at h
  cases hgo : allocateGo d.id_map idx cands with
  | none => rw [hgo] at h; simp at h
  | some p =>
    rw [hgo] at h
    have h' : (p.1, ({ d with id_map := p.2 } : Device)) = (i, d') := by simpa using h
    have h1 : p.1 = i := congrArg Prod.fst h'
    have h2 : ({ d with id_map := p.2 } : Device) = d' := congrArg Prod.snd h'
    obtain ⟨_, hfresh, hm⟩ := allocateGo_spec idx cands d.id_map p.1 p.2 (by rw [hgo])
    subst h1
    subst h2
    show removeId p.2 p.1 = d.id_map
    rw [hm]
    have hlk : lookupId d.id_map p.1 = none := (containsId_false_iff _ _).mp hfresh
    have hrest := removeId_of_lookup_none d.id_map p.1 hlk
    simp only [removeId, List.filter_cons] at hrest ⊢
    simp [hrest]

/-- Witness for C9 at the same concrete device. -/
theorem release_after_allocate_restores_witness :
    ((Device.mk 0 [] [] [(9, 3), (5, 0)]).release 9).id_map = [(5, 0)] :=
  release_after_allocate_restores exDevice 3 [5, 9] 9 ⟨0, [], [], [(9, 3), (5, 0)]⟩ (by decide)

/-- C8: `Device::add` fails exactly when the public key is already mapped or
equals the device's own public key; a failure leaves the device unchanged; a
success appends the new peer, maps the key to its index, and leaves the id map
(and the device key) untouched. -/
theorem add_spec :
    ∀ (d : Device) (pk ident : Nat),
      ((d.add pk ident).1 = .ok () ↔ containsId d.pk_map pk = false ∧ pk ≠ d.pk) ∧
      ((d.add pk ident).1 ≠ .ok () → (d.add pk ident).2 = d) ∧
      ((d.add pk ident).1 = .ok () →
        (d.add pk ident).2.peers = d.peers ++ [⟨d.peers.length, ident, pk⟩] ∧
        lookupId (d.add pk ident).2.pk_map pk = some d.peers.length ∧
        (d.add pk ident).2.id_map = d.id_map ∧
        (d.add pk ident).2.pk = d.pk) := by
  intro d pk ident
  by_cases hc : containsId d.pk_map pk
  · simp [Device.add, hc]
  · by_cases he : pk = d.pk
    · subst he
      simp [Device.add, hc]
    · rw [Bool.not_eq_true] at hc
      refine ⟨by simp [Device.add, hc, he], by simp [Device.add, hc, he], ?_⟩
      intro _
      refine ⟨by simp [Device.add, hc, he], ?_, by simp [Device.add, hc, he],
        by simp [Device.add, hc, he]⟩
      show lookupId (d.add pk ident).2.pk_map pk = some d.peers.length
      have : (d.add pk ident).2.pk_map = insertId d.pk_map pk d.peers.length := by
        simp [Device.add, hc, he]
      rw [this, insertId_fresh d.pk_map pk d.peers.length hc]
      simp [lookupId]

/-- Witness for C8: adding key 2 to a fresh device with key 1 succeeds and
appends the peer at index 0. -/
theorem add_spec_witness :
    ((Device.mk 1 [] [] []).add 2 7).1 = .ok () ∧
    ((Device.mk 1 [] [] []).add 2 7).2.peers = [⟨0, 7, 2⟩] := by
  have h := add_spec ⟨1, [], [], []⟩ 2 7
  have hok : ((Device.mk 1 [] [] []).add 2 7).1 = .ok () := h.1.mpr (by decide)
  refine ⟨hok, ?_⟩
  have := (h.2.2 hok).1
  simpa using this

/-- C10: `Device::process` on any untrusted byte slice whose first byte is
missing or is not a known handshake type (1 or 2) — in particular the empty
slice and types 3 and 4 — returns `InvalidMessageFormat` and leaves the device
unchanged, for every behaviour of the noise-layer workers. -/
theorem process_unknown_type_spec :
    ∀ (cI : Device → List Nat → Except HandshakeError (Nat × Nat))
      (cR : Nat → Nat → Nat → Except HandshakeError Nat)
      (cQ : Device → List Nat → Except HandshakeError Nat)
      (cands : List Nat) (d : Device) (msg : List Nat),
      msg.head? ≠ some 1 → msg.head? ≠ some 2 →
      Device.process cI cR cQ cands d msg = some (.error .InvalidMessageFormat, d) := by
  intro cI cR cQ cands d msg h1 h2
  cases msg with
  | nil => simp [Device.process]
  | cons b rest =>
    simp only [List.head?] at h1 h2
    have hb1 : b ≠ 1 := fun hb => h1 (by rw [hb])
    have hb2 : b ≠ 2 := fun hb => h2 (by rw [hb])
    simp [Device.process, hb1, hb2]

/-- Witness for C10 at a type-3 (cookie reply) datagram. -/
theorem process_unknown_type_spec_witness :
    Device.process (fun _ _ => .error .UnknownPublicKey)
      (fun _ _ _ => .error .UnknownPublicKey) (fun _ _ => .error .UnknownPublicKey)
      [] exDevice [3, 0, 0, 0] = some (.error .InvalidMessageFormat, exDevice) :=
  process_unknown_type_spec _ _ _ [] exDevice [3, 0, 0, 0] (by decide) (by decide)

/-! ### C2, C4, C5 — handler claims -/

/-- C2: on a correctly sized handshake initiation or response, a failed MAC1
verification makes the handler return an error with the server state untouched
and with an empty effect list — so no asymmetric cryptographic operation has
been performed and nothing was sent or mutated before the MAC1 check. -/
theorem mac1_checked_before_asymmetric_ops :
    (∀ (macOk : List Nat → List Nat → Bool) (freshIdx now : Nat)
       (st : ServerState) (pkt : List Nat),
        pkt.length = 148 →
        macOk (pkt.take 116) ((pkt.drop 116).take 16) = false →
        handle_ingress_handshake_init macOk freshIdx now st pkt =
          ⟨.err "mac1 verification failed", st, []⟩) ∧
    (∀ (macOk : List Nat → List Nat → Bool) (now : Nat)
       (st : ServerState) (pkt : List Nat),
        pkt.length = 92 →
        macOk (pkt.take 60) ((pkt.drop 60).take 16) = false →
        handle_ingress_handshake_resp macOk now st pkt =
          ⟨.err "mac1 verification failed", st, []⟩) := by
  constructor
  · intro macOk freshIdx now st pkt hlen hmac
    simp [handle_ingress_handshake_init, hlen, hmac]
  · intro macOk now st pkt hlen hmac
    simp [handle_ingress_handshake_resp, hlen, hmac]

/-- Witness for C2: a 148-byte initiation whose MAC1 fails is dropped with no
state change and no effects. -/
theorem mac1_checked_before_asymmetric_ops_witness :
    handle_ingress_handshake_init (fun _ _ => false) 0 0 exServer (List.replicate 148 1) =
      ⟨.err "mac1 verification failed", exServer, []⟩ :=
  mac1_checked_before_asymmetric_ops.1 (fun _ _ => false) 0 0 exServer
    (List.replicate 148 1) (by simp) rfl

/-- C4: a timer message whose receiver index is in no live slot of its peer
leaves every peer (and hence every session) unchanged and sends no outbound
datagram, for all four timer kinds. -/
theorem timer_dead_session_is_noop :
    ∀ (freshIdx now : Nat) (st : ServerState) (msg : TimerMessage) (peer : PeerState),
      st.peers[(timerTarget msg).1]? = some peer →
      peer.find_session (timerTarget msg).2 = none →
      (handle_timer freshIdx now st msg).state.peers = st.peers ∧
      sentDatagrams (handle_timer freshIdx now st msg).effects = [] := by
  intro freshIdx now st msg peer hpeer hfind
  cases msg with
  | Rekey pid idx =>
    simp only [timerTarget] at hpeer hfind
    simp [handle_timer, hpeer, hfind, sentDatagrams]
  | Reject pid idx =>
    simp only [timerTarget] at hpeer hfind
    have hset := list_set_self st.peers pid peer hpeer
    simp [handle_timer, hpeer, hfind, sentDatagrams, setPeer, hset]
  | PassiveKeepAlive pid idx =>
    simp only [timerTarget] at hpeer hfind
    simp [handle_timer, hpeer, hfind, sentDatagrams]
  | PersistentKeepAlive pid idx =>
    simp only [timerTarget] at hpeer hfind
    simp [handle_timer, hpeer, hfind, sentDatagrams]

/-- Witness for C4: a passive-keepalive timer for index 3 on a peer with an
empty ladder changes no peer and sends nothing. -/
theorem timer_dead_session_is_noop_witness :
    (handle_timer 0 50 c4State (.PassiveKeepAlive 0 3)).state.peers = c4State.peers ∧
    sentDatagrams (handle_timer 0 50 c4State (.PassiveKeepAlive 0 3)).effects = [] :=
  timer_dead_session_is_noop 0 50 c4State (.PassiveKeepAlive 0 3) emptyPeer
    (by decide) (by decide)

/-- C5 failing input: the type-3 (cookie reply) dispatch path has no size
check; on the 4-byte datagram `[3,0,0,0]` the handler dereferences bytes 4..8
of the packet and panics, instead of rejecting the wrongly sized datagram with
an error as it does for types 1 and 2. -/
theorem cookie_reply_short_packet_crashes :
    (handle_ingress_packet (fun _ _ => true) (fun _ _ => true) 0 0 exServer
        [3, 0, 0, 0]).outcome = .crashed ∧
    (handle_ingress_packet (fun _ _ => true) (fun _ _ => true) 0 0 exServer
        (1 :: List.replicate 99 0)).outcome =
      .err "handshake init packet length is incorrect" ∧
    (handle_ingress_packet (fun _ _ => true) (fun _ _ => true) 0 0 exServer
        (2 :: List.replicate 99 0)).outcome =
      .err "handshake resp packet length is incorrect" := by
  refine ⟨by decide, ?_, ?_⟩
  · simp [handle_ingress_packet, handle_ingress_handshake_init]
  · simp [handle_ingress_packet, handle_ingress_handshake_resp]

/-! ### C3 — handshake-initiation throttle -/

theorem drainAbortGo_no_inits (now : Nat) :
    ∀ (q : List (List Nat)) (p : PeerState),
      sentInits (drainAbortGo now p q).2.1 = [] ∧
      (drainAbortGo now p q).1.last_sent_init = p.last_sent_init := by
  intro q
  induction q with
  | nil => intro p; simp [drainAbortGo, sentInits]
  | cons pkt rest ih =>
    intro p
    cases hc : p.sessions.current with
    | none =>
      simp [drainAbortGo, PeerState.handle_outgoing_transport, hc, sentInits]
    | some s =>
      have ih' := ih { p with sessions :=
        { p.sessions with current := some { s with last_sent := now } } }
      simp only [drainAbortGo, PeerState.handle_outgoing_transport, hc]
      simp [sentInits] at ih' ⊢
      exact ih'

/-- C3 counterexample: a peer whose `current` session (receiver index 7) last
completed a handshake 130s ago but whose last initiation was sent only 2s ago
(2 < REKEY_TIMEOUT = 5).  The Rekey timer handler nevertheless sends a new
handshake initiation: the `current`-session path never consults
`last_sent_init`, refuting the claim that every initiation-sending path
observes the throttle. -/
theorem rekey_current_ignores_throttle :
    tsElapsed c3Peer.last_sent_init 130 < REKEY_TIMEOUT ∧
    sentInits (handle_timer 9 130 c3State (.Rekey 0 7)).effects = [9] := by decide

/-- C3 amended: the throttle `now − last_sent_init < REKEY_TIMEOUT` suppresses
new initiations on the Rekey path for a `next` session and on the egress-driven
path; the Rekey path for a `current` session is instead gated by
`now − last_handshake > REKEY_AFTER_TIME` and does not consult
`last_sent_init`. -/
theorem rekey_throttle_amended :
    (∀ (freshIdx now : Nat) (st : ServerState) (pid idx : Nat)
       (peer : PeerState) (s : Session),
        st.peers[pid]? = some peer →
        peer.find_session idx = some (s, .Next) →
        tsElapsed peer.last_sent_init now < REKEY_TIMEOUT →
        sentInits (handle_timer freshIdx now st (.Rekey pid idx)).effects = []) ∧
    (∀ (freshIdx now : Nat) (st : ServerState) (pid idx : Nat)
       (peer : PeerState) (s : Session),
        st.peers[pid]? = some peer →
        peer.find_session idx = some (s, .Current) →
        tsElapsed peer.last_handshake now ≤ REKEY_AFTER_TIME →
        sentInits (handle_timer freshIdx now st (.Rekey pid idx)).effects = []) ∧
    (∀ (router : List Nat → Option Nat) (freshIdx now : Nat) (st : ServerState)
       (pid : Nat) (peer : PeerState) (pkt : List Nat),
        router pkt = some pid →
        st.peers[pid]? = some peer →
        tsElapsed peer.last_sent_init now < REKEY_TIMEOUT →
        sentInits (handle_egress_packet router freshIdx now st pkt).effects = []) := by
  refine ⟨?_, ?_, ?_⟩
  · intro freshIdx now st pid idx peer s hpeer hfind hth
    simp [handle_timer, hpeer, hfind, hth, sentInits]
  · intro freshIdx now st pid idx peer s hpeer hfind hth
    simp [handle_timer, hpeer, hfind, hth, sentInits]
  · intro router freshIdx now st pid peer pkt hroute hpeer hth
    have hdec : decide (REKEY_TIMEOUT ≤ tsElapsed peer.last_sent_init now) = false := by
      simp [Nat.not_le.mpr hth]
    by_cases hsz : (pkt.isEmpty || decide (MAX_CONTENT_SIZE < pkt.length)) = true
    · simp [handle_egress_packet, hsz, sentInits]
    · rw [Bool.not_eq_true] at hsz
      have hq : (peer.queue_egress pkt now).last_sent_init = peer.last_sent_init := rfl
      cases hready : (peer.queue_egress pkt now).ready_for_transport with
      | false =>
        simp [handle_egress_packet, hsz, hroute, hpeer, hready,
          PeerState.needs_new_handshake, hdec, hq, sentInits]
      | true =>
        simp only [handle_egress_packet, hsz, hroute, hpeer, hready, drainAbort,
          Bool.false_eq_true, if_false, if_true, eq_self_iff_true]
        set p0 : PeerState :=
          { sessions := (peer.queue_egress pkt now).sessions, outgoing_queue := [],
            last_sent_init := (peer.queue_egress pkt now).last_sent_init,
            last_handshake := (peer.queue_egress pkt now).last_handshake,
            last_tun_queue := (peer.queue_egress pkt now).last_tun_queue,
            keepalive := (peer.queue_egress pkt now).keepalive } with hp0
        obtain ⟨hIn, hLsi⟩ :=
          drainAbortGo_no_inits now (peer.queue_egress pkt now).outgoing_queue p0
        have hLsi' : (drainAbortGo now p0
            (peer.queue_egress pkt now).outgoing_queue).1.last_sent_init =
            peer.last_sent_init := by
          rw [hLsi, hp0]; rfl
        cases hstep : (drainAbortGo now p0
            (peer.queue_egress pkt now).outgoing_queue).2.2 with
        | some e =>
          simp [sentInits] at hIn ⊢
          exact hIn
        | none =>
          have hneeds : ((drainAbortGo now p0
              (peer.queue_egress pkt now).outgoing_queue).1).needs_new_handshake now
              = false := by
            simp [PeerState.needs_new_handshake, hLsi', hdec]
          simp only [hneeds, Bool.false_eq_true, if_false]
          simp [sentInits] at hIn ⊢
          exact hIn

/-- Witness for the amended C3 at a concrete peer with an in-flight `next`
session whose initiation is 1s old. -/
theorem rekey_throttle_amended_witness :
    sentInits (handle_timer 9 100 c3aState (.Rekey 0 7)).effects = [] :=
  rekey_throttle_amended.1 9 100 c3aState 0 7 c3aPeer ⟨7, 0, 0, false⟩
    (by decide) (by decide) (by decide)

/-! ### C6 — queue drain on ready transitions -/

theorem drainAbortGo_all_ok (now : Nat) :
    ∀ (q : List (List Nat)) (p : PeerState) (s : Session),
      p.sessions.current = some s →
      ∃ s', (drainAbortGo now p q).1.sessions.current = some s' ∧
        s'.our_index = s.our_index ∧
        (drainAbortGo now p q).2.1 =
          q.map (fun pl => Effect.Send (.Transport s.our_index pl)) ∧
        (drainAbortGo now p q).2.2 = none ∧
        (drainAbortGo now p q).1.outgoing_queue = p.outgoing_queue := by
  intro q
  induction q with
  | nil => intro p s hc; exact ⟨s, hc, rfl, rfl, rfl, rfl⟩
  | cons pkt rest ih =>
    intro p s hc
    obtain ⟨s', h1, h2, h3, h4, h5⟩ := ih
      { p with sessions := { p.sessions with current := some { s with last_sent := now } } }
      { s with last_sent := now } rfl
    refine ⟨s', ?_, ?_, ?_, ?_, ?_⟩ <;>
      simp [drainAbortGo, PeerState.handle_outgoing_transport, hc, h1, h2, h3, h4, h5]

theorem drainWarnGo_all_ok (now : Nat) :
    ∀ (q : List (List Nat)) (p : PeerState) (s : Session),
      p.sessions.current = some s →
      ∃ s', (drainWarnGo now p q).1.sessions.current = some s' ∧
        s'.our_index = s.our_index ∧
        (drainWarnGo now p q).2 =
          q.map (fun pl => Effect.Send (.Transport s.our_index pl)) ∧
        (drainWarnGo now p q).1.outgoing_queue = p.outgoing_queue := by
  intro q
  induction q with
  | nil => intro p s hc; exact ⟨s, hc, rfl, rfl, rfl⟩
  | cons pkt rest ih =>
    intro p s hc
    obtain ⟨s', h1, h2, h3, h4⟩ := ih
      { p with sessions := { p.sessions with current := some { s with last_sent := now } } }
      { s with last_sent := now } rfl
    refine ⟨s', ?_, ?_, ?_, ?_⟩ <;>
      simp [drainWarnGo, PeerState.handle_outgoing_transport, hc, h1, h2, h3, h4]

theorem sentTransports_map_self (i : Nat) (q : List (List Nat)) :
    sentTransports (q.map fun pl => Effect.Send (.Transport i pl)) = q := by
  induction q with
  | nil => rfl
  | cons a rest ih => simpa [sentTransports] using ih

theorem drainAbortGo_effects (now : Nat) (q : List (List Nat)) (p : PeerState)
    (s : Session) (hc : p.sessions.current = some s) :
    (drainAbortGo now p q).2.1 =
      q.map (fun pl => Effect.Send (.Transport s.our_index pl)) := by
  obtain ⟨s', _, _, h3, _, _⟩ := drainAbortGo_all_ok now q p s hc
  exact h3

theorem drainAbortGo_err_none (now : Nat) (q : List (List Nat)) (p : PeerState)
    (s : Session) (hc : p.sessions.current = some s) :
    (drainAbortGo now p q).2.2 = none := by
  obtain ⟨s', _, _, _, h4, _⟩ := drainAbortGo_all_ok now q p s hc
  exact h4

theorem drainAbortGo_queue (now : Nat) (q : List (List Nat)) (p : PeerState)
    (s : Session) (hc : p.sessions.current = some s) :
    (drainAbortGo now p q).1.outgoing_queue = p.outgoing_queue := by
  obtain ⟨s', _, _, _, _, h5⟩ := drainAbortGo_all_ok now q p s hc
  exact h5

theorem drainWarnGo_effects (now : Nat) (q : List (List Nat)) (p : PeerState)
    (s : Session) (hc : p.sessions.current = some s) :
    (drainWarnGo now p q).2 =
      q.map (fun pl => Effect.Send (.Transport s.our_index pl)) := by
  obtain ⟨s', _, _, h3, _⟩ := drainWarnGo_all_ok now q p s hc
  exact h3

theorem drainWarnGo_queue (now : Nat) (q : List (List Nat)) (p : PeerState)
    (s : Session) (hc : p.sessions.current = some s) :
    (drainWarnGo now p q).1.outgoing_queue = p.outgoing_queue := by
  obtain ⟨s', _, _, _, h4⟩ := drainWarnGo_all_ok now q p s hc
  exact h4

theorem sentTransports_nil : sentTransports [] = [] := rfl

theorem sentTransports_cons_crypto (l : List Effect) :
    sentTransports (Effect.AsymmetricCrypto :: l) = sentTransports l := rfl

theorem sentTransports_cons_send_transport (i : Nat) (pl : List Nat) (l : List Effect) :
    sentTransports (Effect.Send (.Transport i pl) :: l) = pl :: sentTransports l := rfl

theorem sentTransports_cons_spawn (m : TimerMessage) (l : List Effect) :
    sentTransports (Effect.SpawnTimer m :: l) = sentTransports l := rfl

theorem sentTransports_cons_tunnel (pkt : List Nat) (l : List Effect) :
    sentTransports (Effect.SendTunnel pkt :: l) = sentTransports l := rfl

theorem sentTransports_append (l1 l2 : List Effect) :
    sentTransports (l1 ++ l2) = sentTransports l1 ++ sentTransports l2 := by
  simp [sentTransports]

theorem drainAbortGo_keepalive (now : Nat) :
    ∀ (q : List (List Nat)) (p : PeerState),
      (drainAbortGo now p q).1.keepalive = p.keepalive := by
  intro q
  induction q with
  | nil => intro p; rfl
  | cons pkt rest ih =>
    intro p
    cases hc : p.sessions.current <;>
      simp [drainAbortGo, PeerState.handle_outgoing_transport, hc, ih]

/-- C6: on the two transitions that make a session ready for transport — a
consumed handshake response and an inbound transport packet that promotes the
`next` session — the peer's queued egress packets are all encrypted and sent in
FIFO order and the queue ends empty; after a handshake response with an empty
queue an empty-payload keepalive transport datagram is sent instead. -/
theorem ready_transition_drains_fifo :
    (∀ (macOk : List Nat → List Nat → Bool) (now : Nat) (st : ServerState)
       (pkt : List Nat) (pid : Nat) (peer : PeerState) (s : Session),
        pkt.length = 92 →
        macOk (pkt.take 60) ((pkt.drop 60).take 16) = true →
        lookupId st.index_map (readU32le pkt 8) = some pid →
        st.peers[pid]? = some peer →
        peer.sessions.next = some s →
        sentTransports (handle_ingress_handshake_resp macOk now st pkt).effects =
          (if peer.outgoing_queue.isEmpty then [[]] else peer.outgoing_queue) ∧
        ((handle_ingress_handshake_resp macOk now st pkt).state.peers[pid]?).map
            (fun p => p.outgoing_queue) = some []) ∧
    (∀ (validate_src : List Nat → Nat → Bool) (now : Nat) (st : ServerState)
       (pkt : List Nat) (pid : Nat) (peer : PeerState) (s : Session),
        8 ≤ pkt.length →
        lookupId st.index_map (readU32le pkt 4) = some pid →
        st.peers[pid]? = some peer →
        peer.sessions.next = some s →
        s.our_index = readU32le pkt 4 →
        sentTransports (handle_ingress_transport validate_src now st pkt).effects =
          peer.outgoing_queue ∧
        ((handle_ingress_transport validate_src now st pkt).state.peers[pid]?).map
            (fun p => p.outgoing_queue) = some []) := by
  constructor
  · intro macOk now st pkt pid peer s hlen hmac hidx hpeer hnext
    have hlt : pid < st.peers.length := by
      by_contra hge
      rw [List.getElem?_eq_none (Nat.le_of_not_lt hge)] at hpeer
      exact Option.noConfusion hpeer
    cases hpast : peer.sessions.past with
    | none =>
      cases hqv : peer.outgoing_queue with
      | nil =>
        cases hk : peer.keepalive with
        | none =>
          simp [handle_ingress_handshake_resp, hlen, hmac, hidx, hpeer,
            PeerState.process_incoming_handshake_response, hnext, hpast, hqv, hk,
            PeerState.ready_for_transport, PeerState.handle_outgoing_transport,
            setPeer, sentTransports_cons_crypto, sentTransports_cons_send_transport,
            sentTransports_cons_spawn, sentTransports_append, sentTransports_nil,
            List.getElem?_set_eq_of_lt, hlt]
        | some k =>
          by_cases h0 : 0 < k <;>
            simp [handle_ingress_handshake_resp, hlen, hmac, hidx, hpeer,
              PeerState.process_incoming_handshake_response, hnext, hpast, hqv, hk, h0,
              PeerState.ready_for_transport, PeerState.handle_outgoing_transport,
              setPeer, sentTransports_cons_crypto, sentTransports_cons_send_transport,
              sentTransports_cons_spawn, sentTransports_append, sentTransports_nil,
              List.getElem?_set_eq_of_lt, hlt]
      | cons q0 qrest =>
        cases hk : peer.keepalive with
        | none =>
          simp [handle_ingress_handshake_resp, hlen, hmac, hidx, hpeer,
            PeerState.process_incoming_handshake_response, hnext, hpast, hqv, hk,
            PeerState.ready_for_transport, drainAbort,
            drainAbortGo_effects, drainAbortGo_err_none, drainAbortGo_queue,
            drainAbortGo_keepalive,
            setPeer, sentTransports_cons_crypto, sentTransports_cons_send_transport,
            sentTransports_cons_spawn, sentTransports_append, sentTransports_nil,
            sentTransports_map_self, List.getElem?_set_eq_of_lt, hlt]
        | some k =>
          by_cases h0 : 0 < k <;>
            simp [handle_ingress_handshake_resp, hlen, hmac, hidx, hpeer,
              PeerState.process_incoming_handshake_response, hnext, hpast, hqv, hk, h0,
              PeerState.ready_for_transport, drainAbort,
              drainAbortGo_effects, drainAbortGo_err_none, drainAbortGo_queue,
              drainAbortGo_keepalive,
              setPeer, sentTransports_cons_crypto, sentTransports_cons_send_transport,
              sentTransports_cons_spawn, sentTransports_append, sentTransports_nil,
              sentTransports_map_self, List.getElem?_set_eq_of_lt, hlt]
    | some sp =>
      cases hqv : peer.outgoing_queue with
      | nil =>
        cases hk : peer.keepalive with
        | none =>
          simp [handle_ingress_handshake_resp, hlen, hmac, hidx, hpeer,
            PeerState.process_incoming_handshake_response, hnext, hpast, hqv, hk,
            PeerState.ready_for_transport, PeerState.handle_outgoing_transport,
            setPeer, sentTransports_cons_crypto, sentTransports_cons_send_transport,
            sentTransports_cons_spawn, sentTransports_append, sentTransports_nil,
            List.getElem?_set_eq_of_lt, hlt]
        | some k =>
          by_cases h0 : 0 < k <;>
            simp [handle_ingress_handshake_resp, hlen, hmac, hidx, hpeer,
              PeerState.process_incoming_handshake_response, hnext, hpast, hqv, hk, h0,
              PeerState.ready_for_transport, PeerState.handle_outgoing_transport,
              setPeer, sentTransports_cons_crypto, sentTransports_cons_send_transport,
              sentTransports_cons_spawn, sentTransports_append, sentTransports_nil,
              List.getElem?_set_eq_of_lt, hlt]
      | cons q0 qrest =>
        cases hk : peer.keepalive with
        | none =>
          simp [handle_ingress_handshake_resp, hlen, hmac, hidx, hpeer,
            PeerState.process_incoming_handshake_response, hnext, hpast, hqv, hk,
            PeerState.ready_for_transport, drainAbort,
            drainAbortGo_effects, drainAbortGo_err_none, drainAbortGo_queue,
            drainAbortGo_keepalive,
            setPeer, sentTransports_cons_crypto, sentTransports_cons_send_transport,
            sentTransports_cons_spawn, sentTransports_append, sentTransports_nil,
            sentTransports_map_self, List.getElem?_set_eq_of_lt, hlt]
        | some k =>
          by_cases h0 : 0 < k <;>
            simp [handle_ingress_handshake_resp, hlen, hmac, hidx, hpeer,
              PeerState.process_incoming_handshake_response, hnext, hpast, hqv, hk, h0,
              PeerState.ready_for_transport, drainAbort,
              drainAbortGo_effects, drainAbortGo_err_none, drainAbortGo_queue,
              drainAbortGo_keepalive,
              setPeer, sentTransports_cons_crypto, sentTransports_cons_send_transport,
              sentTransports_cons_spawn, sentTransports_append, sentTransports_nil,
              sentTransports_map_self, List.getElem?_set_eq_of_lt, hlt]
  · intro validate_src now st pkt pid peer s hlen hidx hpeer hnext hoi
    have hlt : pid < st.peers.length := by
      by_contra hge
      rw [List.getElem?_eq_none (Nat.le_of_not_lt hge)] at hpeer
      exact Option.noConfusion hpeer
    have hlen' : ¬ pkt.length < 8 := Nat.not_lt.mpr hlen
    cases hpast : peer.sessions.past with
    | none =>
      by_cases hraw : (pkt.drop 16).isEmpty
      · simp [handle_ingress_transport, hlen', hidx, hpeer,
          PeerState.handle_incoming_transport, PeerState.find_session, slotMatch,
          hnext, hoi, hpast, hraw, Option.orElse,
          drainWarnGo_effects, drainWarnGo_queue,
          setPeer, sentTransports_cons_crypto, sentTransports_cons_send_transport,
          sentTransports_cons_spawn, sentTransports_cons_tunnel,
          sentTransports_append, sentTransports_nil,
          sentTransports_map_self, List.getElem?_set_eq_of_lt, hlt]
      · by_cases hval : validate_src (pkt.drop 16) pid <;>
          simp [handle_ingress_transport, hlen', hidx, hpeer,
            PeerState.handle_incoming_transport, PeerState.find_session, slotMatch,
            hnext, hoi, hpast, hraw, hval, Option.orElse,
            drainWarnGo_effects, drainWarnGo_queue,
            setPeer, sentTransports_cons_crypto, sentTransports_cons_send_transport,
            sentTransports_cons_spawn, sentTransports_cons_tunnel,
            sentTransports_append, sentTransports_nil,
            sentTransports_map_self, List.getElem?_set_eq_of_lt, hlt]
    | some sp =>
      by_cases hraw : (pkt.drop 16).isEmpty
      · simp [handle_ingress_transport, hlen', hidx, hpeer,
          PeerState.handle_incoming_transport, PeerState.find_session, slotMatch,
          hnext, hoi, hpast, hraw, Option.orElse,
          drainWarnGo_effects, drainWarnGo_queue,
          setPeer, sentTransports_cons_crypto, sentTransports_cons_send_transport,
          sentTransports_cons_spawn, sentTransports_cons_tunnel,
          sentTransports_append, sentTransports_nil,
          sentTransports_map_self, List.getElem?_set_eq_of_lt, hlt]
      · by_cases hval : validate_src (pkt.drop 16) pid <;>
          simp [handle_ingress_transport, hlen', hidx, hpeer,
            PeerState.handle_incoming_transport, PeerState.find_session, slotMatch,
            hnext, hoi, hpast, hraw, hval, Option.orElse,
            drainWarnGo_effects, drainWarnGo_queue,
            setPeer, sentTransports_cons_crypto, sentTransports_cons_send_transport,
            sentTransports_cons_spawn, sentTransports_cons_tunnel,
            sentTransports_append, sentTransports_nil,
            sentTransports_map_self, List.getElem?_set_eq_of_lt, hlt]

/-- Witness for C6: a response for index 7 with two queued packets drains both
in order. -/
theorem ready_transition_drains_fifo_witness :
    sentTransports (handle_ingress_handshake_resp (fun _ _ => true) 5 c6State
      c6pkt).effects = [[1], [2]] := by
  have h := ready_transition_drains_fifo.1 (fun _ _ => true) 5 c6State c6pkt 0 c6Peer
    ⟨7, 0, 0, false⟩ (by decide) rfl (by decide) (by decide) rfl
  simpa [c6Peer] using h.1

/-! ### C7 — poll drain order -/

theorem drainCfg_trace (l : List ConfigEvent) :
    ∀ st, (drainCfg st l).2 = l.map TraceEv.Cfg := by
  induction l with
  | nil => intro st; rfl
  | cons e rest ih => intro st; simp [drainCfg, ih]

theorem drainTimers_trace (freshIdx now : Nat) (l : List TimerMessage) :
    ∀ st, (drainTimers freshIdx now st l).2 = l.map TraceEv.Tim := by
  induction l with
  | nil => intro st; rfl
  | cons m rest ih => intro st; simp [drainTimers, ih]

theorem drainIngress_trace (macOk : List Nat → List Nat → Bool)
    (validate_src : List Nat → Nat → Bool) (freshIdx now : Nat) (l : List (List Nat)) :
    ∀ st, (drainIngress macOk validate_src freshIdx now st l).2 =
      l.map TraceEv.Ingress := by
  induction l with
  | nil => intro st; rfl
  | cons d rest ih => intro st; simp [drainIngress, ih]

theorem drainEgress_trace (router : List Nat → Option Nat) (freshIdx now : Nat)
    (l : List (List Nat)) :
    ∀ st, (drainEgress router freshIdx now st l).2 = l.map TraceEv.Egress := by
  induction l with
  | nil => intro st; rfl
  | cons p rest ih => intro st; simp [drainEgress, ih]

/-- C7: one wake of the event loop processes the four event sources to
exhaustion in the fixed priority order: configuration events first, then timer
firings, then ingress datagrams, then egress inner packets. -/
theorem poll_drains_in_priority_order :
    ∀ (macOk : List Nat → List Nat → Bool) (validate_src : List Nat → Nat → Bool)
      (router : List Nat → Option Nat) (freshIdx now : Nat) (ls : LoopState),
      ls.ingress_ok = true →
      (poll macOk validate_src router freshIdx now ls).2 =
        ls.configQ.map TraceEv.Cfg ++ ls.timerQ.map TraceEv.Tim ++
        ls.ingressQ.map TraceEv.Ingress ++ ls.egressQ.map TraceEv.Egress := by
  intro macOk validate_src router freshIdx now ls hing
  simp [poll, hing, drainCfg_trace, drainTimers_trace, drainIngress_trace,
    drainEgress_trace]

/-- Witness for C7: a loop with one backlog entry per source yields the ordered
four-element trace. -/
theorem poll_drains_in_priority_order_witness :
    (poll (fun _ _ => true) (fun _ _ => true) (fun _ => none) 0 0 c7Loop).2 =
      [TraceEv.Cfg ConfigEvent.Other, TraceEv.Tim (TimerMessage.Reject 0 1),
       TraceEv.Ingress [9], TraceEv.Egress [1]] := by
  have h := poll_drains_in_priority_order (fun _ _ => true) (fun _ _ => true)
    (fun _ => none) 0 0 c7Loop rfl
  simpa [c7Loop] using h
